import Mathlib

/-!
Verification of the `screenbuf` package (logrhythm/promptui, src/screenbuf/screenbuf.go).

The package implements a line-oriented terminal screen renderer, `ScreenBuf`,
that redraws an interactive prompt region using ANSI escape sequences.

Embedding conventions:
* Byte strings are modelled as `List Char` (one `Char` per rune); the byte
  length of a Go `[]byte` holding UTF-8 text is recovered with `byteLen`,
  which sums `Char.utf8Size`.  All escape sequences emitted by the package
  are ASCII, so char-level and byte-level concatenation agree on them.
* `terminal.Width()` (an external capability, package
  `wayneashleyberry/terminal-dimensions`) is modelled as an input to `Write`:
  `none` stands for a failed query (`err != nil`), `some x` for a successful
  query returning width `x`.
* `bytes.Buffer.Write`, `bytes.Buffer.WriteTo` and `bytes.Buffer.Reset` never
  return errors in Go (`Write` always returns `len(p), nil`); the
  corresponding `if err != nil` branches in the source are dead and the
  buffer is modelled as a pure `List Char` that operations append to.
  The output sink `w` is modelled by returning the emitted bytes from `Flush`.
* Go `int` arithmetic on `strippedBufLen` can go negative
  (`utf8.RuneCountInString(stripped) - 2`); it is modelled with `Int` and
  Go's truncated division/remainder `Int.tdiv` / `Int.tmod`.
-/

namespace Screenbuf

/-- `esc = "\033["`: the two-character CSI prefix used by all emitted sequences. -/
def esc : List Char := ['\x1b', '[']

/-- `clearLine = []byte(esc + "2K\r")`: clear current line and return to column 0. -/
def clearLine : List Char := esc ++ ['2', 'K', '\r']

/-- `moveUp = []byte(esc + "1A")`: move the cursor up one row. -/
def moveUp : List Char := esc ++ ['1', 'A']

/-- `moveDown = []byte(esc + "1B")`: move the cursor down one row. -/
def moveDown : List Char := esc ++ ['1', 'B']

/-!
## The ANSI-stripping regular expression

The source strips ANSI escape sequences for width accounting with
`re.ReplaceAllString(string(b), "")` where `re` compiles

  `[\u001B\u009B][[\]()#;?]*(?:(?:(?:[a-zA-Z\d]*(?:;[a-zA-Z\d]*)*)?\u0007)|(?:(?:\d{1,4}(?:;\d{0,4})*)?[\dA-PRZcf-ntqry=><~]))`

Go's `regexp` (`MustCompile`, non-POSIX) uses leftmost-first (Perl-style)
matching.  The pattern is embedded as a backtracking matcher: a matcher maps
an input suffix to the list of possible suffixes remaining after a match, in
leftmost-first (greedy) preference order; the overall match takes the first.
-/

/-- A matcher: input suffix to possible remaining suffixes, best first. -/
abbrev M := List Char → List (List Char)

/-- Match one character satisfying `p`. -/
def mChar (p : Char → Bool) : M := fun xs =>
  match xs with
  | [] => []
  | c :: rest => if p c then [rest] else []

/-- Sequencing of matchers (preference order preserved lexicographically). -/
def mSeq (a b : M) : M := fun xs => (a xs).flatMap b

/-- Alternation: the left branch is preferred (leftmost-first). -/
def mAlt (a b : M) : M := fun xs => a xs ++ b xs

/-- The empty match. -/
def mEps : M := fun xs => [xs]

/-- `a?`, greedy: matching `a` is preferred over the empty match. -/
def mOpt (a : M) : M := mAlt a mEps

/-- `a*`, greedy, with explicit fuel (each iteration must consume input).
More iterations are preferred, matching greedy Kleene-star backtracking. -/
def mStar (a : M) : Nat → M
  | 0 => mEps
  | fuel + 1 => fun xs =>
      ((a xs).flatMap fun ys =>
        if ys.length < xs.length then mStar a fuel ys else []) ++ [xs]

/-- `a{0,n}`, greedy bounded repetition. -/
def mRep (a : M) : Nat → M
  | 0 => mEps
  | n + 1 => mAlt (mSeq a (mRep a n)) mEps

/-- Class `[\u001B\u009B]`: ESC or the one-byte C1 CSI. -/
def isIntroC (c : Char) : Bool := c == '\x1b' || c == Char.ofNat 0x9b

/-- Class `[[\]()#;?]`. -/
def isInterC (c : Char) : Bool :=
  c == '[' || c == ']' || c == '(' || c == ')' || c == '#' || c == ';' || c == '?'

/-- Class `[a-zA-Z\d]`. -/
def isAlnumC (c : Char) : Bool := c.isAlpha || c.isDigit

/-- Class `[\dA-PRZcf-ntqry=><~]`: the final bytes of a CSI sequence. -/
def isFinalC (c : Char) : Bool :=
  c.isDigit || decide ('A' ≤ c ∧ c ≤ 'P') || c == 'R' || c == 'Z' || c == 'c' ||
  decide ('f' ≤ c ∧ c ≤ 'n') || c == 't' || c == 'q' || c == 'r' || c == 'y' ||
  c == '=' || c == '>' || c == '<' || c == '~'

/-- `\u0007` (BEL). -/
def isBelC (c : Char) : Bool := c == '\x07'

/-- `;`. -/
def isSemiC (c : Char) : Bool := c == ';'

/-- `\d`. -/
def isDigitC (c : Char) : Bool := c.isDigit

/-- First alternative `(?:[a-zA-Z\d]*(?:;[a-zA-Z\d]*)*)?\u0007`
(OSC-style payload terminated by BEL). -/
def mAltBel (fuel : Nat) : M :=
  mSeq
    (mOpt (mSeq (mStar (mChar isAlnumC) fuel)
                (mStar (mSeq (mChar isSemiC) (mStar (mChar isAlnumC) fuel)) fuel)))
    (mChar isBelC)

/-- Second alternative `(?:\d{1,4}(?:;\d{0,4})*)?[\dA-PRZcf-ntqry=><~]`
(CSI parameters and final byte). -/
def mAltCsi (fuel : Nat) : M :=
  mSeq
    (mOpt (mSeq (mSeq (mChar isDigitC) (mRep (mChar isDigitC) 3))
                (mStar (mSeq (mChar isSemiC) (mRep (mChar isDigitC) 4)) fuel)))
    (mChar isFinalC)

/-- The whole pattern: intro class, intermediate class star, then the
alternation (BEL-terminated preferred, as written in the source). -/
def mAnsi (fuel : Nat) : M :=
  mSeq (mChar isIntroC) (mSeq (mStar (mChar isInterC) fuel) (mAlt (mAltBel fuel) (mAltCsi fuel)))

/-- Length of the leftmost-first match of the ANSI pattern at the head of
`xs`, if any. -/
def matchAnsiLen (xs : List Char) : Option Nat :=
  match mAnsi xs.length xs with
  | [] => none
  | ys :: _ => some (xs.length - ys.length)

/-- Worker for `stripAnsi`, structurally recursive on a fuel counter so that
it evaluates inside the kernel.  Every step consumes at least one character,
so fuel equal to the input length suffices. -/
def stripAnsiGo : Nat → List Char → List Char
  | 0, xs => xs
  | _ + 1, [] => []
  | fuel + 1, c :: rest =>
    match matchAnsiLen (c :: rest) with
    | some (n + 1) => stripAnsiGo fuel (rest.drop n)
    | _ => c :: stripAnsiGo fuel rest

/-- `re.ReplaceAllString(s, "")`: delete every (leftmost-first,
non-overlapping) match of the ANSI pattern.  The pattern always consumes its
intro character, so matches are never empty. -/
def stripAnsi (xs : List Char) : List Char := stripAnsiGo xs.length xs

example : stripAnsi ['a', 'b', 'c', 'd'] = ['a', 'b', 'c', 'd'] := by decide

example : stripAnsi ('\x1b' :: '[' :: '3' :: '1' :: 'm' :: ['h', 'i']) = ['h', 'i'] := by decide

/-!
## The ScreenBuf state and its operations
-/

/-- UTF-8 byte length of a chunk of text, i.e. `len(b)` for the Go `[]byte`
holding it. -/
def byteLen (b : List Char) : Nat := (b.map Char.utf8Size).sum

/-- `bytes.ContainsAny(b, "\r\n")`.  The bytes `\r` and `\n` occur in valid
UTF-8 exactly where the corresponding runes occur. -/
def containsCRLF (b : List Char) : Bool := b.any fun c => c == '\r' || c == '\n'

/-- The `ScreenBuf` struct.  The writer `w` is not a field here: output is
returned by `Flush`.  The `flush bool` field of the source is never read or
written anywhere in the package and is omitted. -/
structure ScreenBuf where
  buf : List Char
  reset : Bool
  cursor : Nat
  height : Nat
  prevBufLen : Nat
  isSelect : Bool
deriving DecidableEq, Repr

/-- `New(w, isSelect)`: all counters start at the Go zero value. -/
def New (isSelect : Bool) : ScreenBuf :=
  { buf := [], reset := false, cursor := 0, height := 0, prevBufLen := 0, isSelect := isSelect }

/-- Errors a `ScreenBuf` operation can return.  Buffer writes never fail,
so the only errors are the two `fmt.Errorf` values in `Write` and a failed
`terminal.Width()` query (propagated verbatim). -/
inductive WriteError where
  | invalidInput
  | widthError
  | invalidCursor (cursor height : Nat)
deriving DecidableEq, Repr

deriving instance DecidableEq for Except

/-- `Reset()`: truncate the buffer and mark the previous lines for clearing. -/
def Reset (s : ScreenBuf) : ScreenBuf :=
  { s with buf := [], reset := true }

/-- `Clear()`: queue `moveUp`+`clearLine` for each of the `height` previously
drawn rows, then zero the counters.  The buffer writes cannot fail, so the
Go error return is always `nil` and is dropped. -/
def Clear (s : ScreenBuf) : ScreenBuf :=
  { s with
    buf := s.buf ++ (List.replicate s.height (moveUp ++ clearLine)).flatten
    cursor := 0
    height := 0
    reset := false }

/-- The escape sequences queued by the wrap-compensation block of `Write`
(the body of `if x > 0 && !s.isSelect`), for terminal width `x`, previous
write byte length `prevBufLen` and current line `b`:
`numClearLines` pairs from the wrapped-row count, plus one extra pair when
the client is deleting characters (`prevBufLen > len(b)` and `cond1 || cond2`).
Go `int` division and remainder truncate toward zero (`tdiv` / `tmod`). -/
def wrapClears (x : Nat) (prevBufLen : Nat) (b : List Char) : List Char :=
  let strippedBufLen : Int := ((stripAnsi b).length : Int) - 2
  let numClearLines : Int := strippedBufLen.tdiv (x : Int)
  let base := (List.replicate numClearLines.toNat (moveUp ++ clearLine)).flatten
  let cond1 := (strippedBufLen + 1).tmod (x : Int) == 0
  let cond2 := (strippedBufLen + 2).tmod (x : Int) == 0
  if prevBufLen > byteLen b && (cond1 || cond2) then
    base ++ moveUp ++ clearLine
  else
    base

/-- The final `switch` of `Write`: append a new row when
`s.cursor == s.height`, overwrite in place when `s.cursor < s.height`, and
fail with the invalid-cursor-position error otherwise.  The returned `n` is
what the source returns: in the append branch the result of
`s.buf.Write(line)` (the line plus its newline); in the overwrite branch the
result of the last buffer write, `s.buf.Write(moveDown)`. -/
def dispatch (s : ScreenBuf) (b : List Char) : ScreenBuf × Except WriteError Nat :=
  if s.cursor = s.height then
    ({ s with
        buf := s.buf ++ clearLine ++ b ++ ['\n']
        height := s.height + 1
        cursor := s.cursor + 1 },
     .ok (byteLen b + 1))
  else if s.cursor < s.height then
    ({ s with
        buf := s.buf ++ clearLine ++ b ++ moveDown
        cursor := s.cursor + 1 },
     .ok (byteLen moveDown))
  else
    (s, .error (.invalidCursor s.cursor s.height))

/-- `Write(b)`.  `wres` is the result of the `terminal.Width()` call:
`none` models `err != nil`, `some x` a successful query of width `x`.
Returns the updated state and either the Go `(n, nil)` value or the error.
The input check comes first, then the deferred clear, then the width query,
then the wrap-compensation block, then `s.prevBufLen = len(b)`, then the
switch (`dispatch`). -/
def Write (wres : Option Nat) (s : ScreenBuf) (b : List Char) :
    ScreenBuf × Except WriteError Nat :=
  if containsCRLF b then
    (s, .error .invalidInput)
  else
    let s1 := if s.reset then Clear s else s
    match wres with
    | none => (s1, .error .widthError)
    | some x =>
      let s2 :=
        if 0 < x && !s1.isSelect then
          { s1 with buf := s1.buf ++ wrapClears x s1.prevBufLen b }
        else s1
      dispatch { s2 with prevBufLen := byteLen b } b

/-- `WriteString(str)`: `Write` on the byte representation of `str`. -/
def WriteString (wres : Option Nat) (s : ScreenBuf) (str : List Char) :
    ScreenBuf × Except WriteError Nat :=
  Write wres s str

/-- `Flush()`: queue `clearLine`+`moveDown` for every row from `cursor` up to
`height` (the `if i < s.height` in the loop body is the loop condition and
always true), emit the whole buffer to `w` (returned as the second
component), reset the buffer, queue `height` `moveUp` sequences into the
fresh buffer, and zero the cursor.  None of the involved writes can fail. -/
def Flush (s : ScreenBuf) : ScreenBuf × List Char :=
  let emitted := s.buf ++ (List.replicate (s.height - s.cursor) (clearLine ++ moveDown)).flatten
  ({ s with buf := (List.replicate s.height moveUp).flatten, cursor := 0 }, emitted)

/-!
## Operation sequences

For the invariant claims the public operations are wrapped in a small
command language executed from a freshly constructed `ScreenBuf`.
-/

/-- One public operation, with the width-query outcome a `Write` observes. -/
inductive Op where
  | write (wres : Option Nat) (b : List Char)
  | writeString (wres : Option Nat) (str : List Char)
  | flush
  | reset
  | clear
deriving DecidableEq, Repr

/-- Execute one operation, keeping the state (errors and return values are
reported to the caller but leave the struct exactly as the source does). -/
def execOp (s : ScreenBuf) : Op → ScreenBuf
  | .write wres b => (Write wres s b).1
  | .writeString wres str => (WriteString wres s str).1
  | .flush => (Flush s).1
  | .reset => Reset s
  | .clear => Clear s

/-- Execute a sequence of operations from a given state. -/
def execOps (s : ScreenBuf) (ops : List Op) : ScreenBuf :=
  ops.foldl execOp s

/-- The example trace used by the end-to-end claims: the three lines
`"a"`, `"b"`, `"c"` written to a fresh non-wrap-aware `ScreenBuf`
(every width query succeeding with width 80). -/
def traceABC : ScreenBuf :=
  (Write (some 80) (Write (some 80) (Write (some 80) (New true) ['a']).1 ['b']).1 ['c']).1

/-- Continuation of `traceABC`: flush the three-line frame, then write the
single line `"x"` of a shrunken frame. -/
def traceShrink : ScreenBuf :=
  (Write (some 80) (Flush traceABC).1 ['x']).1

/-!
## Helper lemmas
-/

theorem Clear_cursor (s : ScreenBuf) : (Clear s).cursor = 0 := rfl

theorem Clear_height (s : ScreenBuf) : (Clear s).height = 0 := rfl

/-- The switch preserves `cursor ≤ height`: the append branch increments
both from an equality, the overwrite branch increments `cursor` below
`height`, and the error path leaves them alone. -/
theorem dispatch_cursor_le_height (s : ScreenBuf) (b : List Char)
    (h : s.cursor ≤ s.height) :
    (dispatch s b).1.cursor ≤ (dispatch s b).1.height := by
  unfold dispatch
  split_ifs with h1 h2 <;> simp <;> omega

/-- `Write` preserves `cursor ≤ height`: the clear path zeroes both, the
wrap-compensation block only touches the buffer, and the switch preserves
the bound. -/
theorem Write_cursor_le_height (wres : Option Nat) (s : ScreenBuf) (b : List Char)
    (h : s.cursor ≤ s.height) :
    (Write wres s b).1.cursor ≤ (Write wres s b).1.height := by
  unfold Write
  split
  · exact h
  · have h1 : (if s.reset then Clear s else s).cursor ≤ (if s.reset then Clear s else s).height := by
      split
      · exact Nat.le_refl 0
      · exact h
    cases wres with
    | none => exact h1
    | some x =>
      refine dispatch_cursor_le_height _ b ?_
      split
      · split <;> simp_all [Clear]
      · split <;> simp_all [Clear]

/-- Every operation preserves `cursor ≤ height`. -/
theorem execOp_cursor_le_height (s : ScreenBuf) (op : Op)
    (h : s.cursor ≤ s.height) : (execOp s op).cursor ≤ (execOp s op).height := by
  cases op with
  | write wres b => exact Write_cursor_le_height wres s b h
  | writeString wres str => exact Write_cursor_le_height wres s str h
  | flush =>
    show (0 : Nat) ≤ s.height
    exact Nat.zero_le _
  | reset => exact h
  | clear => exact Nat.le_refl 0

/-- Sequences of operations preserve `cursor ≤ height`. -/
theorem execOps_cursor_le_height (ops : List Op) (s : ScreenBuf)
    (h : s.cursor ≤ s.height) : (execOps s ops).cursor ≤ (execOps s ops).height := by
  induction ops generalizing s with
  | nil => exact h
  | cons op ops ih => exact ih (execOp s op) (execOp_cursor_le_height s op h)

/-!
## The claims
-/

/-- C1: for every sequence of operations (Write, WriteString, Flush, Reset,
Clear) starting from a freshly constructed `ScreenBuf`, the invariant
`cursor ≤ height` holds before and after every operation — every state
reached from `New` along any operation prefix satisfies it, so no operation
ever establishes `cursor > height`. -/
theorem writes_never_exceed_height (sel : Bool) (ops : List Op) :
    (execOps (New sel) ops).cursor ≤ (execOps (New sel) ops).height :=
  execOps_cursor_le_height ops (New sel) (Nat.le_refl 0)

/-- C2: `Write` on input containing a carriage-return or line-feed byte
always fails with the invalid-input error and returns the state entirely
unchanged — for every state (a pending reset included) and every width-query
outcome, no field of the struct changes and nothing reaches the buffer. -/
theorem write_crlf_rejected (wres : Option Nat) (s : ScreenBuf) (b : List Char)
    (h : containsCRLF b = true) :
    Write wres s b = (s, .error .invalidInput) := by
  unfold Write
  simp [h]

/-- Witness for C2: a line consisting of a single newline, written to a
`ScreenBuf` with a pending reset, is rejected with the state untouched. -/
theorem write_crlf_rejected_witness :
    containsCRLF ['\n'] = true ∧
    Write (some 80) (Reset (New false)) ['\n'] = (Reset (New false), .error .invalidInput) :=
  ⟨by decide, write_crlf_rejected (some 80) (Reset (New false)) ['\n'] (by decide)⟩

/-- The switch fails with the invalid-cursor-position error exactly on
`cursor > height`, leaving the state alone. -/
theorem dispatch_invalid (s : ScreenBuf) (b : List Char) (hc : s.height < s.cursor) :
    dispatch s b = (s, .error (.invalidCursor s.cursor s.height)) := by
  unfold dispatch
  split_ifs with h1 h2
  · omega
  · omega
  · rfl

/-- Full description of `Write` at an invalid cursor position (no pending
reset, successful width query): the wrap-compensation block may still run
and `prevBufLen` is still updated, but the switch fails with the
invalid-cursor-position error. -/
theorem Write_invalid_cursor (x : Nat) (s : ScreenBuf) (b : List Char)
    (hb : containsCRLF b = false) (hr : s.reset = false) (hc : s.height < s.cursor) :
    Write (some x) s b =
      ((if (decide (0 < x) && !s.isSelect) = true then
          { s with buf := s.buf ++ wrapClears x s.prevBufLen b, prevBufLen := byteLen b }
        else { s with prevBufLen := byteLen b }),
       .error (.invalidCursor s.cursor s.height)) := by
  unfold Write
  simp only [hb, hr, Bool.false_eq_true, if_false]
  split
  · rename_i h
    refine Eq.trans (dispatch_invalid _ _ ?_) ?_
    · exact hc
    · simp [h, hr]
  · rename_i h
    refine Eq.trans (dispatch_invalid _ _ ?_) ?_
    · exact hc
    · simp [h, hr]

/-- C3, counterexample: the claim quantifies over every state with
`cursor > height`, but on a state with a pending reset `Write` runs the
deferred `Clear` first (zeroing both counters) and then succeeds — it does
not fail with the invalid-cursor-position error. -/
theorem write_past_height_cex :
    (⟨[], true, 1, 0, 0, true⟩ : ScreenBuf).height < (⟨[], true, 1, 0, 0, true⟩ : ScreenBuf).cursor ∧
    containsCRLF ['a'] = false ∧
    (Write (some 80) ⟨[], true, 1, 0, 0, true⟩ ['a']).2 = .ok 2 := by
  decide

/-- C3, amended: on a state with `cursor > height` and no pending reset,
`Write` of a terminator-free line with a successful width query always fails
with the invalid-cursor-position error (carrying the current counters), so a
write past the known drawn region is never silently placed. -/
theorem write_past_height_fails (x : Nat) (s : ScreenBuf) (b : List Char)
    (hb : containsCRLF b = false) (hr : s.reset = false) (hc : s.height < s.cursor) :
    (Write (some x) s b).2 = .error (.invalidCursor s.cursor s.height) := by
  rw [Write_invalid_cursor x s b hb hr hc]

/-- Witness for the amended C3 at a concrete state with `cursor = 2`,
`height = 1`. -/
theorem write_past_height_fails_witness :
    containsCRLF ['a'] = false ∧
    (⟨[], false, 2, 1, 0, true⟩ : ScreenBuf).height < (⟨[], false, 2, 1, 0, true⟩ : ScreenBuf).cursor ∧
    (Write (some 80) ⟨[], false, 2, 1, 0, true⟩ ['a']).2 = .error (.invalidCursor 2 1) :=
  ⟨by decide, by decide,
    write_past_height_fails 80 ⟨[], false, 2, 1, 0, true⟩ ['a'] (by decide) rfl (by decide)⟩

/-- C4, counterexample: the width query is performed in every mode and its
failure is propagated to the caller: on a fresh non-wrap-aware `ScreenBuf`
(`isSelect = true`, wrap-awareness disabled) a failed `terminal.Width()`
makes `Write` fail with the propagated width error instead of being
tolerated. -/
theorem width_error_cex :
    (New true).isSelect = true ∧
    Write none (New true) ['a'] = (New true, .error .widthError) := by
  decide

/-- C4, amended: `Write` queries the terminal width in every mode (after the
deferred clear); a failed query aborts the write with the propagated error,
while a zero reported width is tolerated by skipping the whole
wrap-compensation block — the write proceeds as pure pass-through rendering
(clear-line, text, newline or move-down), with no wrap clearing. -/
theorem width_zero_passthrough (s : ScreenBuf) (b : List Char)
    (hb : containsCRLF b = false) (hr : s.reset = false) :
    Write none s b = (s, .error .widthError) ∧
    (s.cursor = s.height →
      Write (some 0) s b =
        ({ s with
            buf := s.buf ++ clearLine ++ b ++ ['\n']
            prevBufLen := byteLen b
            height := s.height + 1
            cursor := s.cursor + 1 },
         .ok (byteLen b + 1))) ∧
    (s.cursor < s.height →
      Write (some 0) s b =
        ({ s with
            buf := s.buf ++ clearLine ++ b ++ moveDown
            prevBufLen := byteLen b
            cursor := s.cursor + 1 },
         .ok (byteLen moveDown))) := by
  refine ⟨?_, ?_, ?_⟩
  · unfold Write
    simp [hb, hr]
  · intro hch
    unfold Write dispatch
    simp [hb, hr, hch]
  · intro hlt
    unfold Write dispatch
    simp [hb, hr, hlt]
    omega

/-- Witness for the amended C4 on a fresh wrap-aware `ScreenBuf` and the
line `"ok"`. -/
theorem width_zero_passthrough_witness :
    containsCRLF ['o', 'k'] = false ∧
    (Write none (New false) ['o', 'k'] = (New false, .error .widthError) ∧
      ((New false).cursor = (New false).height →
        Write (some 0) (New false) ['o', 'k'] =
          ({ New false with
              buf := (New false).buf ++ clearLine ++ ['o', 'k'] ++ ['\n']
              prevBufLen := byteLen ['o', 'k']
              height := (New false).height + 1
              cursor := (New false).cursor + 1 },
           .ok (byteLen ['o', 'k'] + 1))) ∧
      ((New false).cursor < (New false).height →
        Write (some 0) (New false) ['o', 'k'] =
          ({ New false with
              buf := (New false).buf ++ clearLine ++ ['o', 'k'] ++ moveDown
              prevBufLen := byteLen ['o', 'k']
              cursor := (New false).cursor + 1 },
           .ok (byteLen moveDown)))) :=
  ⟨by decide, width_zero_passthrough (New false) ['o', 'k'] (by decide) rfl⟩

/-- C5, counterexample: wrap-aware mode, terminal width 10, previous write
of byte length 9 (nine visible characters, longer than the new line), new
line `"abcd"` of 4 visible characters.  The claim predicts one extra
move-up + clear-line pair before the new line's output; the code emits
none — the deletion heuristic tests the *current* line's stripped length
(4 − 2 = 2; neither 2+1 nor 2+2 is divisible by 10), so the buffer receives
only clear-line, the text and the newline, and contains no `'A'` at all
(hence no occurrence of `moveUp`). -/
theorem wrap_heuristic_cex :
    byteLen ['a', 'b', 'c', 'd'] < 9 ∧
    (stripAnsi ['a', 'b', 'c', 'd']).length = 4 ∧
    (Write (some 10) ⟨[], false, 0, 0, 9, false⟩ ['a', 'b', 'c', 'd']).1.buf =
      clearLine ++ ['a', 'b', 'c', 'd'] ++ ['\n'] ∧
    'A' ∉ (Write (some 10) ⟨[], false, 0, 0, 9, false⟩ ['a', 'b', 'c', 'd']).1.buf := by
  decide

/-- C5, amended: in wrap-aware mode with positive width `x` (no pending
reset, appending at `cursor = height`), the buffer receives, after the old
contents and before the clear-line + text + newline of the new line itself:
`⌊(v − 2) / x⌋` move-up + clear-line pairs (`v` the ANSI-stripped rune count
of the *current* line, Go truncated division), plus exactly one extra
move-up + clear-line pair when the previous write's byte length exceeds the
current line's byte length **and** `v − 1` or `v` is congruent to `0`
modulo `x` under Go's truncated remainder (equivalently, the current
stripped length minus 2 is congruent to `x−1` or `x−2`).  In particular
the heuristic is driven by the current line, not the previous one. -/
theorem wrap_heuristic_pairs (x : Nat) (s : ScreenBuf) (b : List Char)
    (hb : containsCRLF b = false) (hr : s.reset = false) (hx : 0 < x)
    (hsel : s.isSelect = false) (hch : s.cursor = s.height) :
    (Write (some x) s b).1.buf =
      s.buf ++
      (List.replicate (((((stripAnsi b).length : Int) - 2).tdiv (x : Int)).toNat)
        (moveUp ++ clearLine)).flatten ++
      (if byteLen b < s.prevBufLen ∧
          ((((stripAnsi b).length : Int) - 1).tmod (x : Int) = 0 ∨
            ((stripAnsi b).length : Int).tmod (x : Int) = 0)
        then moveUp ++ clearLine else []) ++
      clearLine ++ b ++ ['\n'] := by
  have e1 : ((stripAnsi b).length : Int) - 2 + 1 = ((stripAnsi b).length : Int) - 1 := by ring
  have e2 : ((stripAnsi b).length : Int) - 2 + 2 = ((stripAnsi b).length : Int) := by ring
  unfold Write wrapClears dispatch
  simp only [hb, hr, hsel, hx, Bool.false_eq_true, if_false, Bool.not_false, Bool.and_true,
    decide_eq_true_eq, if_true, e1, e2, gt_iff_lt, Bool.and_eq_true, Bool.or_eq_true, beq_iff_eq,
    decide_True, hch, if_pos]
  split_ifs with h1 <;> simp_all [List.append_assoc]

/-- Witness for the amended C5: width 10, previous byte length 12, current
line ten letters long (`v = 10`, `v ≡ 0 (mod 10)`): the heuristic pair is
emitted once, after `⌊(10−2)/10⌋ = 0` wrapped-row pairs. -/
theorem wrap_heuristic_pairs_witness :
    containsCRLF ['q', 'w', 'e', 'r', 't', 'y', 'u', 'i', 'o', 'p'] = false ∧
    (Write (some 10) ⟨[], false, 0, 0, 12, false⟩
        ['q', 'w', 'e', 'r', 't', 'y', 'u', 'i', 'o', 'p']).1.buf =
      [] ++
      (List.replicate
          (((((stripAnsi ['q', 'w', 'e', 'r', 't', 'y', 'u', 'i', 'o', 'p']).length : Int) - 2).tdiv
              (10 : Int)).toNat)
          (moveUp ++ clearLine)).flatten ++
      (if byteLen ['q', 'w', 'e', 'r', 't', 'y', 'u', 'i', 'o', 'p'] < 12 ∧
          ((((stripAnsi ['q', 'w', 'e', 'r', 't', 'y', 'u', 'i', 'o', 'p']).length : Int) - 1).tmod
              (10 : Int) = 0 ∨
            ((stripAnsi ['q', 'w', 'e', 'r', 't', 'y', 'u', 'i', 'o', 'p']).length : Int).tmod
              (10 : Int) = 0)
        then moveUp ++ clearLine else []) ++
      clearLine ++ ['q', 'w', 'e', 'r', 't', 'y', 'u', 'i', 'o', 'p'] ++ ['\n'] :=
  ⟨by decide,
    wrap_heuristic_pairs 10 ⟨[], false, 0, 0, 12, false⟩
      ['q', 'w', 'e', 'r', 't', 'y', 'u', 'i', 'o', 'p'] (by decide) rfl (by decide) rfl rfl⟩

/-- C6: writing `"a"`, `"b"`, `"c"` to a freshly constructed non-wrap-aware
`ScreenBuf` and flushing yields `height = 3` and `cursor = 0`; the bytes
emitted to the sink are exactly three clear-line + text + newline groups;
and afterwards exactly three move-up sequences sit queued in the otherwise
empty internal buffer (they are not part of the emitted stream). -/
theorem three_lines_end_to_end :
    (Flush traceABC).1.height = 3 ∧
    (Flush traceABC).1.cursor = 0 ∧
    (Flush traceABC).2 =
      (clearLine ++ ['a'] ++ ['\n']) ++ (clearLine ++ ['b'] ++ ['\n']) ++
        (clearLine ++ ['c'] ++ ['\n']) ∧
    (Flush traceABC).1.buf = moveUp ++ moveUp ++ moveUp := by
  decide

/-- C7: `Flush` appends, for every row from `cursor` up to `height`, a
clear-line + move-down pair before the buffer is emitted (first conjunct —
the emitted stream is the queued buffer followed by those pairs); in the
concrete shrinking scenario (`height = 3`, one `Write` this frame, so
`cursor = 1`) the two abandoned trailing rows each receive
clear-line + move-down after the frame's content and the whole stream is
then emitted. -/
theorem shrunken_frame_flush :
    (∀ s : ScreenBuf,
      (Flush s).2 =
        s.buf ++ (List.replicate (s.height - s.cursor) (clearLine ++ moveDown)).flatten) ∧
    traceShrink.cursor = 1 ∧
    traceShrink.height = 3 ∧
    (Flush traceShrink).2 =
      (moveUp ++ moveUp ++ moveUp ++ (clearLine ++ ['x'] ++ moveDown)) ++
        ((clearLine ++ moveDown) ++ (clearLine ++ moveDown)) := by
  refine ⟨fun s => rfl, by decide, by decide, by decide⟩

/-- C8: after every `Flush` (which cannot fail: all involved writes are
buffer writes and the sink write is modelled as returning the emitted
bytes), `cursor = 0`, `height` is unchanged, and the fresh buffer holds
exactly `height` move-up sequences — which are not part of the bytes this
`Flush` emitted (those are the old buffer plus the trailing clear pairs). -/
theorem flush_post_state (s : ScreenBuf) :
    (Flush s).1.cursor = 0 ∧
    (Flush s).1.height = s.height ∧
    (Flush s).1.buf = (List.replicate s.height moveUp).flatten ∧
    (Flush s).2 = s.buf ++ (List.replicate (s.height - s.cursor) (clearLine ++ moveDown)).flatten :=
  ⟨rfl, rfl, rfl, rfl⟩

/-- C9, counterexample: the same line `"ab"` written in the append branch
returns 3 (`len("ab\n")`) but written in the overwrite branch returns 4
(`len(moveDown)`, the last buffer write of that branch) — the returned
integer is not determined by the line in the same way in both branches. -/
theorem write_return_value_cex :
    (Write (some 80) (New true) ['a', 'b']).2 = .ok 3 ∧
    (Write (some 80) (Flush (Write (some 80) (New true) ['x']).1).1 ['a', 'b']).2 = .ok 4 ∧
    (Write (some 80) (New true) ['a', 'b']).2 ≠
      (Write (some 80) (Flush (Write (some 80) (New true) ['x']).1).1 ['a', 'b']).2 := by
  decide

/-- C9, amended: a successful `Write` returns the result of the *last*
buffer write of its branch: in the append branch the byte length of the
line plus its newline; in the overwrite branch the byte length of the
move-down sequence (4), independent of the line.  Buffer writes cannot
fail, so the only propagated errors are the two validation errors and the
width-query failure. -/
theorem write_return_values (x : Nat) (s : ScreenBuf) (b : List Char)
    (hb : containsCRLF b = false) (hr : s.reset = false) :
    byteLen moveDown = 4 ∧
    (s.cursor = s.height → (Write (some x) s b).2 = .ok (byteLen b + 1)) ∧
    (s.cursor < s.height → (Write (some x) s b).2 = .ok (byteLen moveDown)) := by
  refine ⟨rfl, ?_, ?_⟩
  · intro hch
    unfold Write dispatch
    simp only [hb, hr, Bool.false_eq_true, if_false]
    split <;> simp [hch]
  · intro hlt
    unfold Write dispatch
    simp only [hb, hr, Bool.false_eq_true, if_false]
    split <;> simp [hlt, Nat.ne_of_lt hlt]

/-- Witness for the amended C9 at the fresh append position. -/
theorem write_return_values_witness :
    containsCRLF ['a', 'b'] = false ∧
    (byteLen moveDown = 4 ∧
      ((New true).cursor = (New true).height →
        (Write (some 80) (New true) ['a', 'b']).2 = .ok (byteLen ['a', 'b'] + 1)) ∧
      ((New true).cursor < (New true).height →
        (Write (some 80) (New true) ['a', 'b']).2 = .ok (byteLen moveDown))) :=
  ⟨by decide, write_return_values 80 (New true) ['a', 'b'] (by decide) rfl⟩

/-- C10: `prevBufLen` is left unchanged by `Reset`, `Clear` and `Flush`, and
`Write` (past the input check, the deferred clear and a successful width
query) sets it to the raw byte length of the current line even when the
write then fails with the invalid-cursor-position error.  Consequently the
first wrap-aware `Write` after a `Reset` or `Clear` still compares against
the last line written before the region was cleared. -/
theorem prevBufLen_only_write :
    (∀ s : ScreenBuf, (Reset s).prevBufLen = s.prevBufLen) ∧
    (∀ s : ScreenBuf, (Clear s).prevBufLen = s.prevBufLen) ∧
    (∀ s : ScreenBuf, (Flush s).1.prevBufLen = s.prevBufLen) ∧
    (∀ (x : Nat) (s : ScreenBuf) (b : List Char),
      containsCRLF b = false → s.reset = false → s.height < s.cursor →
      (Write (some x) s b).1.prevBufLen = byteLen b ∧
      (Write (some x) s b).2 = .error (.invalidCursor s.cursor s.height)) := by
  refine ⟨fun s => rfl, fun s => rfl, fun s => rfl, ?_⟩
  intro x s b hb hr hc
  rw [Write_invalid_cursor x s b hb hr hc]
  constructor
  · split <;> rfl
  · rfl

/-- Witness for C10 at a concrete invalid-cursor state: the failing `Write`
still records the line's byte length. -/
theorem prevBufLen_only_write_witness :
    containsCRLF ['z'] = false ∧
    (⟨[], false, 2, 1, 7, true⟩ : ScreenBuf).height <
      (⟨[], false, 2, 1, 7, true⟩ : ScreenBuf).cursor ∧
    ((Write (some 80) ⟨[], false, 2, 1, 7, true⟩ ['z']).1.prevBufLen = byteLen ['z'] ∧
      (Write (some 80) ⟨[], false, 2, 1, 7, true⟩ ['z']).2 = .error (.invalidCursor 2 1)) :=
  ⟨by decide, by decide,
    prevBufLen_only_write.2.2.2 80 ⟨[], false, 2, 1, 7, true⟩ ['z'] (by decide) rfl (by decide)⟩

end Screenbuf
